import Mathlib

/-!
Shallow embedding of `todo.cpp`, a command-line task tracker.

The C++ program keeps a `std::vector<Task>` in memory, loads it from a text
file `todo.txt` at startup, applies one command, and (for mutating commands)
writes the whole list back.  We model:

* the in-memory list as `List Task`;
* each operation as a function returning the new list together with the
  lines it prints (`List String`);
* the persistence file as a `String` (the file's full content), with
  `Option String` standing for "file may fail to open" (`none` = cannot open);
* the dispatcher `main` as `mainRun`, whose result is `Option MainResult`
  (`none` models the uncaught `std::stoi` exception, i.e. a crash).
-/

namespace Todo

/-- `struct Task { string description; bool completed; }` from todo.cpp. -/
structure Task where
  description : String
  completed : Bool
deriving Repr, DecidableEq

/-- The whitespace set used by `trim` in todo.cpp: `" \t\n\r"`. -/
def isTrimWs (c : Char) : Bool :=
  c == ' ' || c == '\t' || c == '\n' || c == '\r'

/-- `trim` from todo.cpp: drops leading and trailing characters of
`" \t\n\r"`; a string of only such characters becomes `""`. -/
def trim (s : String) : String :=
  String.mk (((s.data.dropWhile isTrimWs).reverse.dropWhile isTrimWs).reverse)

/-- The classic-locale `isspace` set used by `operator>>` and `std::stoi`
when skipping leading whitespace: space, `\t`, `\n`, `\v`, `\f`, `\r`. -/
def isStreamWs (c : Char) : Bool :=
  c == ' ' || c == '\t' || c == '\n' || c == Char.ofNat 11 ||
    c == Char.ofNat 12 || c == '\r'

/-- Numeric value of a (decimal) digit run, most significant first. -/
def digitsVal (l : List Char) : Nat :=
  l.foldl (fun a c => a * 10 + (c.toNat - 48)) 0

/-- `listTasks` from todo.cpp.  Returns the (unchanged) list together with
the printed lines; `listLines i ts` is the `for` loop with counter `i`. -/
def listLines : Nat → List Task → List String
  | _, [] => []
  | i, t :: ts =>
    (toString (i + 1) ++ ". [" ++ (if t.completed then "X" else " ") ++ "] " ++
      t.description) :: listLines (i + 1) ts

/-- `listTasks` from todo.cpp: prints `"No tasks available."` on an empty
list, otherwise one numbered line per task.  The list is only read. -/
def listTasks (tasks : List Task) : List Task × List String :=
  if tasks.isEmpty then (tasks, ["No tasks available."])
  else (tasks, listLines 0 tasks)

/-- `addTask` from todo.cpp: `tasks.push_back(Task(task))`;
the `Task` constructor defaults `completed` to `false`. -/
def addTask (tasks : List Task) (task : String) : List Task :=
  tasks ++ [⟨task, false⟩]

/-- `removeTask` from todo.cpp: erase the element at 1-based `index` when
`1 <= index <= tasks.size()`, otherwise print `"Invalid task index."`. -/
def removeTask (tasks : List Task) (index : Int) : List Task × List String :=
  if 1 ≤ index ∧ index ≤ tasks.length then
    (tasks.eraseIdx (index - 1).toNat, [])
  else
    (tasks, ["Invalid task index."])

/-- The in-place assignment `tasks[n].completed = true` of todo.cpp
(0-based position `n`). -/
def markDoneAt : List Task → Nat → List Task
  | [], _ => []
  | t :: ts, 0 => ⟨t.description, true⟩ :: ts
  | t :: ts, n + 1 => t :: markDoneAt ts n

/-- `markDone` from todo.cpp: set `completed = true` at 1-based `index` when
`1 <= index <= tasks.size()`, otherwise print `"Invalid task index."`. -/
def markDone (tasks : List Task) (index : Int) : List Task × List String :=
  if 1 ≤ index ∧ index ≤ tasks.length then
    (markDoneAt tasks (index - 1).toNat, [])
  else
    (tasks, ["Invalid task index."])

/-- `resetTasks` from todo.cpp: `tasks.clear()`. -/
def resetTasks (_tasks : List Task) : List Task :=
  []

/-- One line written by `saveTasks`: `file << task.completed << " " <<
task.description << endl` — the flag prints as `1`/`0`. -/
def saveLine (t : Task) : String :=
  (if t.completed then "1" else "0") ++ " " ++ t.description ++ "\n"

/-- `saveTasks` from todo.cpp: the file content after the write loop, each
task contributing its line in list order. -/
def saveTasks (tasks : List Task) : String :=
  match tasks with
  | [] => ""
  | t :: ts => saveLine t ++ saveTasks ts

/-- `std::getline` applied repeatedly to the file content: lines are cut at
each `'\n'`; a final fragment without a terminating newline is still a line,
and end-of-input with nothing read produces no line. `acc` holds the chars
of the current line in reverse. -/
def getLinesAux : List Char → List Char → List String
  | [], acc => if acc.isEmpty then [] else [String.mk acc.reverse]
  | c :: rest, acc =>
    if c = '\n' then String.mk acc.reverse :: getLinesAux rest []
    else getLinesAux rest (c :: acc)

/-- All lines of a file content, as read by the `while (getline(file, line))`
loop of `loadTasksFromFile`. -/
def getLines (s : String) : List String :=
  getLinesAux s.data []

/-- The per-line body of `loadTasksFromFile`:
`stringstream ss(line); ss >> completed; getline(ss, desc); trim(desc)`.
`ss >> completed` (no `boolalpha`) skips leading whitespace, reads an
optional sign and a digit run; with no digit it fails, leaving the flag
`false` and the description empty (the subsequent `getline` sees a failed
stream).  A value of `0` stores `false`, `1` stores `true`; any other value
stores `true` and sets `failbit`, so the description again stays empty. -/
def parseLine (line : String) : Task :=
  let cs := line.data.dropWhile isStreamWs
  let signed := match cs with
    | '-' :: r => (true, r)
    | '+' :: r => (false, r)
    | _ => (false, cs)
  let digits := signed.2.takeWhile Char.isDigit
  let rest := signed.2.dropWhile Char.isDigit
  if digits.isEmpty then
    ⟨"", false⟩
  else
    let val : Int := if signed.1 then -(digitsVal digits : Int) else digitsVal digits
    if val = 0 then ⟨trim (String.mk rest), false⟩
    else if val = 1 then ⟨trim (String.mk rest), true⟩
    else ⟨"", true⟩

/-- `loadTasksFromFile` from todo.cpp.  `file = none` models the file
failing to open: the list is left alone and `"No saved tasks found."` is
printed.  Otherwise the list is cleared and one task is pushed per line. -/
def loadTasksFromFile (file : Option String) (tasks : List Task) :
    List Task × List String :=
  match file with
  | none => (tasks, ["No saved tasks found."])
  | some content => ((getLines content).map parseLine, [])

/-- `std::stoi`: skip leading whitespace, optional sign, then at least one
digit; `none` models the `std::invalid_argument` exception. -/
def stoi (s : String) : Option Int :=
  let cs := s.data.dropWhile isStreamWs
  let signed := match cs with
    | '-' :: r => (true, r)
    | '+' :: r => (false, r)
    | _ => (false, cs)
  let digits := signed.2.takeWhile Char.isDigit
  if digits.isEmpty then none
  else some (if signed.1 then -(digitsVal digits : Int) else (digitsVal digits : Int))

/-- Observable outcome of one run of `main`: exit code, printed lines, the
final in-memory list, and the file content written by `saveTasks` (`none`
when no save happened). -/
structure MainResult where
  exitCode : Nat
  output : List String
  finalTasks : List Task
  savedFile : Option String
deriving Repr, DecidableEq

/-- The dispatcher of `main` after the initial load: `args` is
`argv[1..]`, so `args = []` is `argc < 2` and `rest ≠ []` is `argc > 2`.
`task` is `argv[2..]` joined with single spaces.  A `none` result is the
uncaught `std::stoi` exception. -/
def afterLoad (tasks : List Task) (args : List String) : Option MainResult :=
  match args with
  | [] => some ⟨1, ["Usage: todo [COMMAND] [ARGUMENTS]"], tasks, none⟩
  | command :: rest =>
    let task := String.intercalate " " rest
    if command = "list" then
      some ⟨0, (listTasks tasks).2, tasks, none⟩
    else if command = "add" ∧ rest ≠ [] then
      some ⟨0, (listTasks (addTask tasks task)).2, addTask tasks task,
        some (saveTasks (addTask tasks task))⟩
    else if command = "remove" ∧ rest ≠ [] then
      match stoi task with
      | none => none
      | some index =>
        some ⟨0, (removeTask tasks index).2 ++ (listTasks (removeTask tasks index).1).2,
          (removeTask tasks index).1, some (saveTasks (removeTask tasks index).1)⟩
    else if command = "done" ∧ rest ≠ [] then
      match stoi task with
      | none => none
      | some index =>
        some ⟨0, (markDone tasks index).2 ++ (listTasks (markDone tasks index).1).2,
          (markDone tasks index).1, some (saveTasks (markDone tasks index).1)⟩
    else if command = "reset" then
      some ⟨0, ["All tasks reset."], resetTasks tasks, some (saveTasks (resetTasks tasks))⟩
    else
      some ⟨0, ["Invalid command."], tasks, none⟩

/-- One full run of `main`: load (into the initially empty vector), then
dispatch; every line printed by the load precedes the dispatcher's output. -/
def mainRun (file : Option String) (args : List String) : Option MainResult :=
  (afterLoad (loadTasksFromFile file []).1 args).map
    (fun r => { r with output := (loadTasksFromFile file []).2 ++ r.output })

/-! ### Helper lemmas about the embedded operations -/

lemma markDoneAt_length (l : List Task) : ∀ n : Nat, (markDoneAt l n).length = l.length := by
  induction l with
  | nil => intro n; rfl
  | cons t ts ih =>
    intro n
    cases n with
    | zero => simp [markDoneAt]
    | succ n => simp [markDoneAt, ih n]

lemma markDoneAt_get? (l : List Task) : ∀ n j : Nat,
    (markDoneAt l n).get? j =
      if j = n then (l.get? j).map (fun t => ⟨t.description, true⟩) else l.get? j := by
  induction l with
  | nil => intro n j; simp [markDoneAt]
  | cons t ts ih =>
    intro n j
    cases n with
    | zero =>
      cases j with
      | zero => simp [markDoneAt]
      | succ j => simp [markDoneAt]
    | succ n =>
      cases j with
      | zero => simp [markDoneAt]
      | succ j => simpa [markDoneAt, Nat.succ_inj] using ih n j

lemma listLines_length (l : List Task) : ∀ i : Nat, (listLines i l).length = l.length := by
  induction l with
  | nil => intro i; rfl
  | cons t ts ih => intro i; simp [listLines, ih (i + 1)]

lemma listLines_get? (l : List Task) : ∀ i j : Nat,
    (listLines i l).get? j = (l.get? j).map (fun t =>
      toString (i + j + 1) ++ ". [" ++ (if t.completed then "X" else " ") ++ "] " ++
        t.description) := by
  induction l with
  | nil => intro i j; simp [listLines]
  | cons t ts ih =>
    intro i j
    cases j with
    | zero => simp [listLines]
    | succ j =>
      have h : i + 1 + j + 1 = i + (j + 1) + 1 := by omega
      simpa [listLines, h] using ih (i + 1) j

lemma getLinesAux_append (rest : List Char) (l : List Char) (h : '\n' ∉ l) :
    ∀ acc : List Char,
      getLinesAux (l ++ '\n' :: rest) acc =
        String.mk (acc.reverse ++ l) :: getLinesAux rest [] := by
  induction l with
  | nil => intro acc; simp [getLinesAux]
  | cons c l ih =>
    intro acc
    have hc : ¬ c = '\n' := fun hc => h (by simp [hc])
    have hl : '\n' ∉ l := fun hl => h (by simp [hl])
    simp only [List.cons_append, getLinesAux, if_neg hc, List.append_eq]
    rw [ih hl (c :: acc)]
    simp

lemma data_saveLine (t : Task) :
    (saveLine t).data =
      ((if t.completed then '1' else '0') :: ' ' :: t.description.data) ++ '\n' :: [] := by
  cases hb : t.completed <;> simp [saveLine, hb, String.data_append]

lemma newline_notMem_saveLine_left (t : Task) (h : '\n' ∉ t.description.data) :
    '\n' ∉ (if t.completed then '1' else '0') :: ' ' :: t.description.data := by
  intro hmem
  rcases List.mem_cons.mp hmem with h1 | h2
  · cases hb : t.completed <;> rw [hb] at h1 <;> exact absurd h1 (by decide)
  · rcases List.mem_cons.mp h2 with h3 | h4
    · exact absurd h3 (by decide)
    · exact h h4

lemma trim_mk_space_cons (d : List Char) :
    trim (String.mk (' ' :: d)) = trim (String.mk d) := by
  simp [trim, List.dropWhile_cons, isTrimWs]

lemma parseLine_flag_zero (d : List Char) :
    parseLine (String.mk ('0' :: ' ' :: d)) = ⟨trim (String.mk (' ' :: d)), false⟩ := rfl

lemma parseLine_flag_one (d : List Char) :
    parseLine (String.mk ('1' :: ' ' :: d)) = ⟨trim (String.mk (' ' :: d)), true⟩ := rfl

lemma parseLine_savedLine (t : Task) (h : trim t.description = t.description) :
    parseLine (String.mk ((if t.completed then '1' else '0') :: ' ' :: t.description.data)) =
      t := by
  have hmk : String.mk t.description.data = t.description := rfl
  cases hb : t.completed
  · rw [if_neg (by simp)]
    rw [parseLine_flag_zero, trim_mk_space_cons, hmk, h]
    cases t
    simp_all
  · rw [if_pos (by simp)]
    rw [parseLine_flag_one, trim_mk_space_cons, hmk, h]
    cases t
    simp_all

lemma getLines_saveTasks_map (L : List Task)
    (h : ∀ t ∈ L, '\n' ∉ t.description.data ∧ trim t.description = t.description) :
    (getLines (saveTasks L)).map parseLine = L := by
  induction L with
  | nil => rfl
  | cons t ts ih =>
    have ht := h t (by simp)
    have hts : ∀ u ∈ ts, '\n' ∉ u.description.data ∧ trim u.description = u.description :=
      fun u hu => h u (by simp [hu])
    have hdata : (saveTasks (t :: ts)).data =
        ((if t.completed then '1' else '0') :: ' ' :: t.description.data) ++
          '\n' :: (saveTasks ts).data := by
      show (saveLine t ++ saveTasks ts).data = _
      rw [String.data_append, data_saveLine]
      simp
    unfold getLines
    rw [hdata, getLinesAux_append (saveTasks ts).data _
      (newline_notMem_saveLine_left t ht.1) []]
    simp only [List.map_cons, List.reverse_nil, List.nil_append]
    rw [parseLine_savedLine t ht.2]
    exact congrArg (t :: ·) (ih hts)

lemma foldl_append_eq_append (l : List String) :
    ∀ s : String, l.foldl (· ++ ·) s = s ++ l.foldl (· ++ ·) "" := by
  induction l with
  | nil =>
    intro s
    show s = s ++ ""
    exact (String.append_empty s).symm
  | cons a l ih =>
    intro s
    show l.foldl (· ++ ·) (s ++ a) = s ++ l.foldl (· ++ ·) ("" ++ a)
    rw [ih (s ++ a), ih ("" ++ a)]
    have he : ("" : String) ++ a = a := by
      apply String.ext
      simp [String.data_append]
    rw [he, String.append_assoc]

lemma join_cons (a : String) (l : List String) :
    String.join (a :: l) = a ++ String.join l := by
  show l.foldl (· ++ ·) ("" ++ a) = a ++ l.foldl (· ++ ·) ""
  rw [foldl_append_eq_append l ("" ++ a)]
  have he : ("" : String) ++ a = a := by
    apply String.ext
    simp [String.data_append]
  rw [he]

/-! ### Claim theorems -/

/-- C1 (counterexample): the save/load round trip is not the identity on
every newline-free list: the description `" a"` has a leading space, which
`loadTasksFromFile` trims away, so the loaded list differs from the saved
one. -/
theorem save_load_not_inverse :
    (loadTasksFromFile (some (saveTasks [⟨" a", false⟩])) []).1 ≠
      [(⟨" a", false⟩ : Task)] := by
  decide

/-- C1 (amended): for every list `L` of tasks whose descriptions contain no
embedded newline and carry no leading or trailing whitespace (each
description is fixed by `trim`), saving `L` and then loading yields exactly
`L`, with no message printed. -/
theorem save_load_roundtrip (L : List Task)
    (h : ∀ t ∈ L, '\n' ∉ t.description.data ∧ trim t.description = t.description) :
    loadTasksFromFile (some (saveTasks L)) [] = (L, []) := by
  show ((getLines (saveTasks L)).map parseLine, ([] : List String)) = (L, [])
  rw [getLines_saveTasks_map L h]

/-- C1 (witness): the round trip at the concrete list `[⟨"a b", true⟩]`. -/
theorem save_load_roundtrip_witness :
    (∀ t ∈ [(⟨"a b", true⟩ : Task)],
      '\n' ∉ t.description.data ∧ trim t.description = t.description) ∧
    loadTasksFromFile (some (saveTasks [⟨"a b", true⟩])) [] = ([⟨"a b", true⟩], []) :=
  ⟨by decide, save_load_roundtrip [⟨"a b", true⟩] (by decide)⟩

/-- C2: `removeTask` with a 1-based index in `[1, length]` deletes exactly
that element (the list becomes the elements before it followed by the
elements after it) and prints nothing; with any other integer index it
prints `"Invalid task index."` and leaves the list unchanged. -/
theorem removeTask_spec (tasks : List Task) (index : Int) :
    (1 ≤ index → index ≤ tasks.length →
      removeTask tasks index =
        (tasks.take ((index - 1).toNat) ++ tasks.drop index.toNat, [])) ∧
    (index < 1 ∨ (tasks.length : Int) < index →
      removeTask tasks index = (tasks, ["Invalid task index."])) := by
  constructor
  · intro h1 h2
    simp only [removeTask, if_pos (And.intro h1 h2)]
    have hn : index.toNat = (index - 1).toNat + 1 := by omega
    rw [List.eraseIdx_eq_take_drop_succ, hn]
  · intro h
    simp only [removeTask]
    rw [if_neg]
    omega

/-- C2 (witness): removing index 1 from a two-element list, and the
out-of-bounds index 2 on a one-element list. -/
theorem removeTask_spec_witness :
    removeTask [⟨"a", false⟩, ⟨"b", true⟩] 1 = ([⟨"b", true⟩], []) ∧
    removeTask [⟨"a", false⟩] 2 = ([⟨"a", false⟩], ["Invalid task index."]) := by
  constructor
  · have h := (removeTask_spec [⟨"a", false⟩, ⟨"b", true⟩] 1).1 (by decide) (by decide)
    exact h.trans (by decide)
  · exact (removeTask_spec [⟨"a", false⟩] 2).2 (by decide)

/-- C3: `markDone` with a 1-based index in `[1, length]` prints nothing and
the element at that position gets `completed = true` (keeping its
description); with any other integer index — in particular any index on the
empty list — it prints `"Invalid task index."` and leaves the list
unchanged. -/
theorem markDone_spec (tasks : List Task) (index : Int) :
    (1 ≤ index → index ≤ tasks.length →
      (markDone tasks index).2 = [] ∧
      (markDone tasks index).1.get? ((index - 1).toNat) =
        (tasks.get? ((index - 1).toNat)).map (fun t => ⟨t.description, true⟩)) ∧
    (index < 1 ∨ (tasks.length : Int) < index →
      markDone tasks index = (tasks, ["Invalid task index."])) := by
  constructor
  · intro h1 h2
    have hif : markDone tasks index = (markDoneAt tasks (index - 1).toNat, []) := by
      simp only [markDone, if_pos (And.intro h1 h2)]
    rw [hif]
    refine ⟨rfl, ?_⟩
    rw [markDoneAt_get?]
    simp
  · intro h
    simp only [markDone]
    rw [if_neg]
    omega

/-- C3 (witness): `done 1` on a singleton list, and `done 1` on the empty
list. -/
theorem markDone_spec_witness :
    ((markDone [⟨"a", false⟩] 1).2 = [] ∧
      (markDone [⟨"a", false⟩] 1).1.get? 0 = some ⟨"a", true⟩) ∧
    markDone [] 1 = ([], ["Invalid task index."]) := by
  constructor
  · have h := (markDone_spec [⟨"a", false⟩] 1).1 (by decide) (by decide)
    exact ⟨h.1, h.2.trans (by decide)⟩
  · exact (markDone_spec [] 1).2 (by decide)

/-- C4: `addTask` appends exactly one task — the new list is one longer, the
last position holds `⟨desc, false⟩`, and every earlier position is
unchanged; it succeeds for every description, including `""` and strings
with embedded spaces. -/
theorem addTask_spec (tasks : List Task) (desc : String) :
    (addTask tasks desc).length = tasks.length + 1 ∧
    (addTask tasks desc).get? tasks.length = some ⟨desc, false⟩ ∧
    ∀ j : Nat, j < tasks.length → (addTask tasks desc).get? j = tasks.get? j := by
  refine ⟨by simp [addTask], ?_, ?_⟩
  · simp only [addTask]
    exact List.get?_concat_length tasks ⟨desc, false⟩
  · intro j hj
    simp only [addTask]
    exact List.get?_append hj

/-- C4 (witness): adding `"b c"` (an embedded space) after one task. -/
theorem addTask_spec_witness :
    (addTask [⟨"a", true⟩] "b c").get? 1 = some ⟨"b c", false⟩ ∧
    (addTask [⟨"a", true⟩] "b c").get? 0 = some ⟨"a", true⟩ := by
  constructor
  · exact ((addTask_spec [⟨"a", true⟩] "b c").2.1).trans (by decide)
  · exact ((addTask_spec [⟨"a", true⟩] "b c").2.2 0 (by decide)).trans (by decide)

/-- C5: `resetTasks` unconditionally empties the list, and a `list` run over
the file saved from the reset list always prints exactly
`"No tasks available."`. -/
theorem resetTasks_spec (tasks : List Task) :
    resetTasks tasks = [] ∧
    mainRun (some (saveTasks (resetTasks tasks))) ["list"] =
      some ⟨0, ["No tasks available."], [], none⟩ :=
  ⟨rfl, rfl⟩

/-- C6: `listTasks` never changes the list; on the empty list it prints
exactly `"No tasks available."`; on a non-empty list it prints one line per
task, in list order, line `j` (0-based) being
`"<j+1>. [X] <desc>"` or `"<j+1>. [ ] <desc>"` according to the completion
flag, the 1-based positions recomputed from the current order. -/
theorem listTasks_spec (tasks : List Task) :
    (listTasks tasks).1 = tasks ∧
    (tasks = [] → (listTasks tasks).2 = ["No tasks available."]) ∧
    (tasks ≠ [] →
      (listTasks tasks).2.length = tasks.length ∧
      ∀ j : Nat, (listTasks tasks).2.get? j = (tasks.get? j).map (fun t =>
        toString (j + 1) ++ ". [" ++ (if t.completed then "X" else " ") ++ "] " ++
          t.description)) := by
  refine ⟨?_, ?_, ?_⟩
  · simp only [listTasks]
    split <;> rfl
  · intro h
    subst h
    rfl
  · intro h
    have hne : tasks.isEmpty = false := by
      cases tasks with
      | nil => exact absurd rfl h
      | cons t ts => rfl
    simp only [listTasks, hne, Bool.false_eq_true, if_false]
    refine ⟨listLines_length tasks 0, ?_⟩
    intro j
    simpa using listLines_get? tasks 0 j

/-- C6 (witness): listing `[⟨"buy milk", false⟩, ⟨"z", true⟩]` produces the
expected numbered lines. -/
theorem listTasks_spec_witness :
    (listTasks [⟨"buy milk", false⟩, ⟨"z", true⟩]).2.get? 0 =
      some "1. [ ] buy milk" ∧
    (listTasks [⟨"buy milk", false⟩, ⟨"z", true⟩]).2.get? 1 = some "2. [X] z" := by
  constructor
  · exact (((listTasks_spec [⟨"buy milk", false⟩, ⟨"z", true⟩]).2.2
      (by decide)).2 0).trans (by decide)
  · exact (((listTasks_spec [⟨"buy milk", false⟩, ⟨"z", true⟩]).2.2
      (by decide)).2 1).trans (by decide)

/-- C7: the file content written by `saveTasks` is exactly the concatenation,
in list order, of one line per task of the form
`<flag> <description>\n` with `<flag>` printed as `1`/`0`. -/
theorem saveTasks_spec (tasks : List Task) :
    saveTasks tasks = String.join (tasks.map (fun t =>
      (if t.completed then "1" else "0") ++ " " ++ t.description ++ "\n")) := by
  induction tasks with
  | nil => rfl
  | cons t ts ih =>
    show saveLine t ++ saveTasks ts = _
    rw [List.map_cons, join_cons, ih]
    rfl

/-- C8: when the persistence file cannot be opened, the load leaves the
(initially empty) list empty and prints the informational
`"No saved tasks found."`; every run of the program then behaves exactly as
it would on an empty file, with that one extra informational line — the
condition is never fatal. -/
theorem loadTasks_missing_file_spec :
    loadTasksFromFile none [] = ([], ["No saved tasks found."]) ∧
    ∀ args : List String,
      mainRun none args = (mainRun (some "") args).map
        (fun r => { r with output := "No saved tasks found." :: r.output }) := by
  refine ⟨rfl, ?_⟩
  intro args
  have e1 : mainRun none args = (afterLoad [] args).map
      (fun r => { r with output := ["No saved tasks found."] ++ r.output }) := rfl
  have e2 : mainRun (some "") args = (afterLoad [] args).map
      (fun r => { r with output := ([] : List String) ++ r.output }) := rfl
  rw [e1, e2]
  cases afterLoad [] args with
  | none => rfl
  | some r => rfl

/-- C9: on an in-bounds index, `markDone` preserves the list's length, the
description at the touched position, and every other position entirely
(same elements in the same order). -/
theorem markDone_frame (tasks : List Task) (index : Int)
    (h1 : 1 ≤ index) (h2 : index ≤ tasks.length) :
    (markDone tasks index).1.length = tasks.length ∧
    ((markDone tasks index).1.get? ((index - 1).toNat)).map Task.description =
      (tasks.get? ((index - 1).toNat)).map Task.description ∧
    ∀ j : Nat, j ≠ (index - 1).toNat →
      (markDone tasks index).1.get? j = tasks.get? j := by
  simp only [markDone, if_pos (And.intro h1 h2)]
  refine ⟨markDoneAt_length tasks _, ?_, ?_⟩
  · rw [markDoneAt_get?]
    rw [if_pos rfl]
    cases tasks.get? ((index - 1).toNat) <;> rfl
  · intro j hj
    rw [markDoneAt_get?, if_neg hj]

/-- C9 (witness): `done 1` on a two-element list leaves position 2 (and the
touched task's description) intact. -/
theorem markDone_frame_witness :
    (markDone [⟨"a", false⟩, ⟨"b", false⟩] 1).1.get? 1 = some ⟨"b", false⟩ := by
  have h := markDone_frame [⟨"a", false⟩, ⟨"b", false⟩] 1 (by decide) (by decide)
  exact (h.2.2 1 (by decide)).trans (by decide)

/-- C10: with the command `add`, `remove` or `done` but no further argument
(`argc == 2`), the dispatcher prints `"Invalid command."`, leaves the loaded
list as it was, performs no save, and exits with code 0. -/
theorem dispatch_missing_arg (file : Option String) (cmd : String)
    (h : cmd = "add" ∨ cmd = "remove" ∨ cmd = "done") :
    mainRun file [cmd] =
      some ⟨0, (loadTasksFromFile file []).2 ++ ["Invalid command."],
        (loadTasksFromFile file []).1, none⟩ := by
  rcases h with rfl | rfl | rfl <;> rfl

/-- C10 (witness): `todo add` with no saved file. -/
theorem dispatch_missing_arg_witness :
    mainRun none ["add"] =
      some ⟨0, ["No saved tasks found.", "Invalid command."], [], none⟩ := by
  have h := dispatch_missing_arg none "add" (Or.inl rfl)
  exact h.trans (by decide)

end Todo
